import Mathlib

/-!
Shallow embedding of the chunked batching pipeline in
nvtabular/loader/backend.py: TensorItr, ChunkQueue (batch, load_chunks,
get_batch_div_chunk, stop), AsyncIterator (the token-counting consumer
loop and destruction path), and TensorBatchDatasetItr (preprocess,
gather_indices).

Rows are identified by natural numbers; a table (cudf DataFrame) is the
list of its rows.  All slicing below follows Python slice semantics for
non-negative bounds: x[a : a + k] drops a rows and takes up to k.
-/

namespace NVTLoader

abbrev Row := Nat

abbrev Table := List Row

/-- Python slice x[start : start + len] for a non-negative start:
clamps at the end of the list, empty when start is past the end. -/
def pySlice (x : Table) (start len : Nat) : Table :=
  (x.drop start).take len

/-- A per-row transform (a workflow's apply_ops, external collaborator).
The code applies it to a table and uses the mutated/returned table. -/
abbrev Workflow := Table → Table

/-- TensorBatchDatasetItr.preprocess: folds the workflows over the table
(for workflow in self.workflows: x = workflow.apply_ops(x)). -/
def TensorBatchDatasetItr.preprocess (workflows : List Workflow) (x : Table) : Table :=
  workflows.foldl (fun acc w => w acc) x

/-- TensorBatchDatasetItr.gather_indices: per_worker is
int(len(self.indices) // len(self.total_devs)) + 1 (floor division plus
one); the worker takes indices[start : start + per_worker] where
start = worker_id * per_worker. -/
def TensorBatchDatasetItr.gather_indices (indices : List Nat) (total_devs worker_id : Nat) :
    List Nat :=
  pySlice indices (worker_id * (indices.length / total_devs + 1))
    (indices.length / total_devs + 1)

/-- Rendering of the spec's PartitionAssigner formula (section 4.1), for
comparison with the code: per_worker = ceil(total_partitions / num_workers),
slice = indices[start : start + per_worker]. -/
def gatherIndicesSpec (indices : List Nat) (num_workers worker_id : Nat) : List Nat :=
  pySlice indices (worker_id * ((indices.length + num_workers - 1) / num_workers))
    ((indices.length + num_workers - 1) / num_workers)

/-! ## TensorItr -/

/-- TensorItr.__len__: (self.num_samples - 1) // self.batch_size + 1,
with Python floor division (Int.fdiv), so 0 samples give 0 batches. -/
def tensorItrLen (num_samples batch_size : Nat) : Int :=
  Int.fdiv ((num_samples : Int) - 1) (batch_size : Int) + 1

/-- A tensor payload handed to TensorItr: one optional column per field
(the list branch of __iter__ guards tensors that are None). -/
abbrev Tensors := List (Option (List Nat))

/-- TensorItr num_samples: self.tensors[2].size(0), the row count of the
third tensor in the payload. -/
def tensorItrNumSamples (tensors : Tensors) : Nat :=
  match tensors.get? 2 with
  | some (some t) => t.length
  | _ => 0

/-- TensorItr.__iter__ on a list payload: for idx in range(len(self)),
yield [tensor[idx : idx + self.batch_size] for each tensor, None kept].
Note the slice start is idx itself, the batch index. -/
def tensorItrBatches (tensors : Tensors) (batch_size : Nat) : List Tensors :=
  (List.range (tensorItrLen (tensorItrNumSamples tensors) batch_size).toNat).map
    (fun idx => tensors.map (fun t => t.map (fun x => pySlice x idx batch_size)))

/-- Rendering of the spec's BatchSlicer contract (section 4.5), for
comparison with the code: batch i is rows[i * batch_size : min((i + 1) *
batch_size, rows)], uniformly over the columns. -/
def tensorItrBatchesSpec (tensors : Tensors) (batch_size : Nat) : List Tensors :=
  (List.range ((tensorItrNumSamples tensors + batch_size - 1) / batch_size)).map
    (fun idx => tensors.map (fun t => t.map (fun x => pySlice x (idx * batch_size) batch_size)))

/-- Row view of TensorItr as used by the consumer loop
(yield from TensorItr(chunk, batch_size)): the sequence of row slices the
iterator produces from one published payload. -/
def tensorItrRows (t : Table) (batch_size : Nat) : List Table :=
  (List.range (tensorItrLen t.length batch_size).toNat).map
    (fun idx => pySlice t idx batch_size)

/-! ## ChunkQueue -/

/-- Configuration fields of ChunkQueue used by the worker loop. -/
structure ChunkQueueCfg where
  num_parts : Nat
  batch_size : Nat
  shuffle : Bool
deriving DecidableEq

/-- ChunkQueue.get_batch_div_chunk: spill_idx =
int(chunks.shape[0] / self.batch_size) * self.batch_size; the aligned
part is chunks.iloc[:spill_idx], the spill is chunks.iloc[spill_idx:]
(reset_index only renumbers rows, which lists already do). -/
def ChunkQueue.get_batch_div_chunk (batch_size : Nat) (chunks : Table) : Table × Table :=
  (chunks.take (chunks.length / batch_size * batch_size),
   chunks.drop (chunks.length / batch_size * batch_size))

/-- Variant of get_batch_div_chunk keeping the Python failure path:
int(n / 0) raises ZeroDivisionError. -/
def ChunkQueue.get_batch_div_chunk_checked (batch_size : Nat) (chunks : Table) :
    Except String (Table × Table) :=
  if batch_size = 0 then Except.error "ZeroDivisionError"
  else Except.ok (ChunkQueue.get_batch_div_chunk batch_size chunks)

/-- ChunkQueue.batch: accumulates partitions from the iterator, yielding
a group each time the accumulator reaches num_parts, and the non-empty
remainder at the end. -/
def ChunkQueue.batch (num_parts : Nat) : List Table → List Table → List (List Table)
  | current, [] => if 0 < current.length then [current] else []
  | current, v :: rest =>
    if (current ++ [v]).length = num_parts then
      (current ++ [v]) :: ChunkQueue.batch num_parts [] rest
    else
      ChunkQueue.batch num_parts (current ++ [v]) rest

/-- An item put on q_out by load_chunks: a tensorized chunk, or the
string sentinel "end".  create_tensors is framework-specific and
external; it is modelled as preserving the rows of the table, so a batch
item carries the table it was created from. -/
inductive QItem where
  | batch : Table → QItem
  | endTok : QItem
deriving DecidableEq

/-- Capacity of the shared hand-off queue: queue.Queue(1). -/
def queueCapacity : Nat := 1

/-- Effect of one iteration of the load_chunks loop body on the local
variables chunks and spill, given the spill carried in and the current
group of partitions.  Mirrors lines 122-140 of backend.py:
a non-empty spill is prepended, the parts are concatenated, split at the
batch-aligned cut, optionally shuffled in place, and the aligned part is
preprocessed, tensorized and published when non-empty (after which the
local chunks variable is None); otherwise the empty aligned table stays
in the chunks variable. -/
structure StepResult where
  published : Option Table
  chunksVar : Option Table
  spill : Table
deriving DecidableEq

def ChunkQueue.processGroup (cfg : ChunkQueueCfg) (shuffleFn : Workflow)
    (workflows : List Workflow) (spillIn : Option Table) (group : List Table) : StepResult :=
  let parts : List Table :=
    match spillIn with
    | some s => if s.isEmpty then group else s :: group
    | none => group
  let pair := ChunkQueue.get_batch_div_chunk cfg.batch_size parts.flatten
  let chunks := if cfg.shuffle then shuffleFn pair.1 else pair.1
  { published :=
      if 0 < chunks.length then some (TensorBatchDatasetItr.preprocess workflows chunks)
      else none,
    chunksVar := if 0 < chunks.length then none else some chunks,
    spill := pair.2 }

/-- Observable outcome of one load_chunks run: the items put on q_out in
order, the argument passed to itr.preprocess in the end-of-stream flush
(recorded only when the flush ran), and the table passed to
create_tensors in the flush. -/
structure RunResult where
  items : List QItem
  flushArg : Option (Option Table)
  flushPublished : Option Table
deriving DecidableEq

/-- Value of the cooperative stop flag as read at successive loop
iterations: some k means the flag reads true from the k-th group on
(the threading.Event is never cleared), none means it is never set. -/
def isStopped : Option Nat → Bool
  | some 0 => true
  | _ => false

def tickStop : Option Nat → Option Nat
  | some (k + 1) => some k
  | o => o

/-- The load_chunks loop over the chunk groups.  Each iteration first
checks the stop flag and returns immediately (publishing nothing
further) when it is set; otherwise it runs the loop body.  After the
loop, if the spill variable holds a table (cudf DataFrames have default
truthiness, so "if spill:" only distinguishes None), the flush calls
itr.preprocess on the local chunks variable, tensorizes the spill
unchanged and publishes it; finally the "end" sentinel is published. -/
def ChunkQueue.loadGo (cfg : ChunkQueueCfg) (shuffleFn : Workflow) (workflows : List Workflow) :
    Option Nat → List (List Table) → Option Table → Option Table → RunResult
  | _, [], spill, chunksVar =>
    match spill with
    | none => { items := [QItem.endTok], flushArg := none, flushPublished := none }
    | some s =>
      { items := [QItem.batch s, QItem.endTok],
        flushArg := some chunksVar,
        flushPublished := some s }
  | stopCtr, g :: gs, spill, chunksVar =>
    if isStopped stopCtr then { items := [], flushArg := none, flushPublished := none }
    else
      let st := ChunkQueue.processGroup cfg shuffleFn workflows spill g
      let rest := ChunkQueue.loadGo cfg shuffleFn workflows (tickStop stopCtr) gs
        (some st.spill) st.chunksVar
      match st.published with
      | some t => { rest with items := QItem.batch t :: rest.items }
      | none => rest

/-- ChunkQueue.load_chunks for one worker: group the partitions, then
run the loop starting with no spill and an unset chunks variable. -/
def ChunkQueue.load_chunks (cfg : ChunkQueueCfg) (shuffleFn : Workflow)
    (workflows : List Workflow) (stopCtr : Option Nat) (parts : List Table) : RunResult :=
  ChunkQueue.loadGo cfg shuffleFn workflows stopCtr
    (ChunkQueue.batch cfg.num_parts [] parts) none none

/-! ## ChunkQueue state and stop -/

/-- Mutable state of a ChunkQueue: the stop event and the contents of
the bounded output queue. -/
structure ChunkQueueState where
  stop_event : Bool
  q_out : List QItem
deriving DecidableEq

/-- ChunkQueue.stopped property: self._stop_event.is_set(). -/
def ChunkQueue.stopped (s : ChunkQueueState) : Bool :=
  s.stop_event

/-- ChunkQueue.stop: sets the event and clears the queue contents. -/
def ChunkQueue.stop (s : ChunkQueueState) : ChunkQueueState :=
  { stop_event := true, q_out := [] }

/-- Operations that touch the shared ChunkQueue state: put and get on
q_out, an explicit stop, and the destruction path (AsyncIterator.__del__
calls self.buff.stop()). -/
inductive CQOp where
  | put : QItem → CQOp
  | get : CQOp
  | stop : CQOp
  | del : CQOp
deriving DecidableEq

def CQOp.apply (s : ChunkQueueState) : CQOp → ChunkQueueState
  | .put it => { s with q_out := s.q_out ++ [it] }
  | .get => { s with q_out := s.q_out.tail }
  | .stop => ChunkQueue.stop s
  | .del => ChunkQueue.stop s

def applyOps (s : ChunkQueueState) (ops : List CQOp) : ChunkQueueState :=
  ops.foldl CQOp.apply s

/-! ## ChunkQueue construction -/

/-- Raw constructor arguments as stored by ChunkQueue.__init__
(batch_size arrives unconstrained, an Int here). -/
structure ChunkQueueFields where
  num_parts : Nat
  batch_size : Int
  shuffle : Bool
deriving DecidableEq

/-- ChunkQueue.__init__: assigns the fields and builds the queue and the
event. It has no failure path, so the Except result is always ok. -/
def ChunkQueue.init (num_parts : Nat) (batch_size : Int) (shuffle : Bool) :
    Except String ChunkQueueFields :=
  Except.ok { num_parts := num_parts, batch_size := batch_size, shuffle := shuffle }

/-! ## AsyncIterator consumer loop -/

/-- The while-loop of AsyncIterator.__iter__: dequeues items, counts the
string sentinels in ends, returns once the count equals the number of
devices, and otherwise yields the TensorItr slices of the payload.
Returns the emitted batches and the items left unconsumed on return. -/
def AsyncIterator.run (num_workers batch_size : Nat) :
    List QItem → Nat → List Table × List QItem
  | [], _ => ([], [])
  | QItem.endTok :: rest, ends =>
    if ends + 1 = num_workers then ([], rest)
    else AsyncIterator.run num_workers batch_size rest (ends + 1)
  | QItem.batch t :: rest, ends =>
    let r := AsyncIterator.run num_workers batch_size rest ends
    (tensorItrRows t batch_size ++ r.1, r.2)

/-! ## Helper lemmas -/

theorem pySlice_length (x : Table) (start len : Nat) :
    (pySlice x start len).length = min (start + len) x.length - start := by
  simp only [pySlice, List.length_take, List.length_drop]
  omega

theorem pySlice_past_end (x : Table) (start len : Nat) (h : x.length ≤ start) :
    pySlice x start len = [] := by
  simp [pySlice, List.drop_eq_nil_of_le h]

theorem prepend_spill_flatten (s : Table) (group : List Table) :
    (if s.isEmpty then group else s :: group).flatten = s ++ group.flatten := by
  cases s <;> simp

theorem sub_div_mul_lt (n bs : Nat) (hbs : 0 < bs) : n - n / bs * bs < bs := by
  have h1 : n / bs * bs + n % bs = n := Nat.div_add_mod' n bs
  have h2 := Nat.mod_lt n hbs
  omega


theorem processGroup_spill (cfg : ChunkQueueCfg) (shuffleFn : Workflow)
    (workflows : List Workflow) (spillIn : Table) (group : List Table) :
    (ChunkQueue.processGroup cfg shuffleFn workflows (some spillIn) group).spill =
      (spillIn ++ group.flatten).drop
        ((spillIn ++ group.flatten).length / cfg.batch_size * cfg.batch_size) := by
  simp only [ChunkQueue.processGroup, ChunkQueue.get_batch_div_chunk, prepend_spill_flatten]

theorem processGroup_published_none (cfg : ChunkQueueCfg) (shuffleFn : Workflow)
    (workflows : List Workflow) (spillIn : Table) (group : List Table)
    (hsh : cfg.shuffle = false)
    (h : (spillIn ++ group.flatten).take
      ((spillIn ++ group.flatten).length / cfg.batch_size * cfg.batch_size) = []) :
    (ChunkQueue.processGroup cfg shuffleFn workflows (some spillIn) group).published = none ∧
    (ChunkQueue.processGroup cfg shuffleFn workflows (some spillIn) group).chunksVar = some [] := by
  simp only [ChunkQueue.processGroup, ChunkQueue.get_batch_div_chunk, prepend_spill_flatten,
    hsh, if_false, Bool.false_eq_true, h]
  simp



theorem loadGo_skip (cfg : ChunkQueueCfg) (shuffleFn : Workflow) (workflows : List Workflow)
    (stopCtr : Option Nat) (g : List Table) (gs : List (List Table))
    (spill chunksVar : Option Table)
    (hstop : isStopped stopCtr = false)
    (hpub : (ChunkQueue.processGroup cfg shuffleFn workflows spill g).published = none) :
    ChunkQueue.loadGo cfg shuffleFn workflows stopCtr (g :: gs) spill chunksVar =
      ChunkQueue.loadGo cfg shuffleFn workflows (tickStop stopCtr) gs
        (some (ChunkQueue.processGroup cfg shuffleFn workflows spill g).spill)
        (ChunkQueue.processGroup cfg shuffleFn workflows spill g).chunksVar := by
  rw [ChunkQueue.loadGo]
  simp [hstop, hpub]



/-- C1: the align step splits the spill-augmented concatenation at
cut = floor(n / batch_size) * batch_size. -/
theorem C1_align_correct (cfg : ChunkQueueCfg) (shuffleFn : Workflow)
    (workflows : List Workflow) (spillIn : Table) (group : List Table)
    (stopCtr : Option Nat) (gs : List (List Table)) (chunksVar : Option Table)
    (hbs : 0 < cfg.batch_size) (hsh : cfg.shuffle = false)
    (hstop : isStopped stopCtr = false) :
    ChunkQueue.get_batch_div_chunk cfg.batch_size (spillIn ++ group.flatten) =
      ((spillIn ++ group.flatten).take
        ((spillIn ++ group.flatten).length / cfg.batch_size * cfg.batch_size),
       (spillIn ++ group.flatten).drop
        ((spillIn ++ group.flatten).length / cfg.batch_size * cfg.batch_size)) ∧
    (ChunkQueue.processGroup cfg shuffleFn workflows (some spillIn) group).spill =
      (spillIn ++ group.flatten).drop
        ((spillIn ++ group.flatten).length / cfg.batch_size * cfg.batch_size) ∧
    (ChunkQueue.processGroup cfg shuffleFn workflows (some spillIn) group).spill.length
      < cfg.batch_size ∧
    ((spillIn ++ group.flatten).take
        ((spillIn ++ group.flatten).length / cfg.batch_size * cfg.batch_size) = [] →
      (ChunkQueue.processGroup cfg shuffleFn workflows (some spillIn) group).published = none ∧
      ChunkQueue.loadGo cfg shuffleFn workflows stopCtr (group :: gs) (some spillIn) chunksVar =
        ChunkQueue.loadGo cfg shuffleFn workflows (tickStop stopCtr) gs
          (some ((ChunkQueue.processGroup cfg shuffleFn workflows (some spillIn) group).spill))
          ((ChunkQueue.processGroup cfg shuffleFn workflows (some spillIn) group).chunksVar)) := by
  refine ⟨rfl, processGroup_spill cfg shuffleFn workflows spillIn group, ?_, fun h => ?_⟩
  · rw [processGroup_spill cfg shuffleFn workflows spillIn group]
    rw [List.length_drop]
    exact sub_div_mul_lt _ _ hbs
  · refine ⟨(processGroup_published_none cfg shuffleFn workflows spillIn group hsh h).1, ?_⟩
    exact loadGo_skip cfg shuffleFn workflows stopCtr group gs (some spillIn) chunksVar hstop
      (processGroup_published_none cfg shuffleFn workflows spillIn group hsh h).1

/-- C1 witness at a concrete input. -/
theorem C1_align_correct_witness :
    0 < (16 : Nat) ∧
    (ChunkQueue.get_batch_div_chunk 16 [7, 8] = ([], [7, 8]) ∧
     (ChunkQueue.processGroup ⟨1, 16, false⟩ id [] (some [7]) [[8]]).spill = [7, 8] ∧
     (ChunkQueue.processGroup ⟨1, 16, false⟩ id [] (some [7]) [[8]]).spill.length < 16 ∧
     (([] : Table) = [] →
       (ChunkQueue.processGroup ⟨1, 16, false⟩ id [] (some [7]) [[8]]).published = none ∧
       ChunkQueue.loadGo ⟨1, 16, false⟩ id [] none [[[8]]] (some [7]) none =
         ChunkQueue.loadGo ⟨1, 16, false⟩ id [] none [] (some [7, 8]) (some []))) :=
  ⟨by decide, C1_align_correct ⟨1, 16, false⟩ id [] [7] [[8]] none [] none (by decide) rfl rfl⟩



/-- C4 counterexample: with 4 partitions and 2 workers the code gives
worker 0 three partitions, while the ceiling formula of the claim gives
two. -/
theorem C4_counterexample :
    TensorBatchDatasetItr.gather_indices [0, 1, 2, 3] 2 0 = [0, 1, 2] ∧
    gatherIndicesSpec [0, 1, 2, 3] 2 0 = [0, 1] ∧
    TensorBatchDatasetItr.gather_indices [0, 1, 2, 3] 2 0 ≠
      gatherIndicesSpec [0, 1, 2, 3] 2 0 := by
  refine ⟨rfl, rfl, by decide⟩

/-- C4 amended: the assigner slices with per_worker equal to floor
division plus one. -/
theorem C4_assignment (indices : List Nat) (num_workers worker_id : Nat)
    (hw : 0 < num_workers) :
    TensorBatchDatasetItr.gather_indices indices num_workers worker_id =
      pySlice indices (worker_id * (indices.length / num_workers + 1))
        (indices.length / num_workers + 1) ∧
    (TensorBatchDatasetItr.gather_indices indices num_workers worker_id).length =
      min (worker_id * (indices.length / num_workers + 1)
            + (indices.length / num_workers + 1)) indices.length
        - worker_id * (indices.length / num_workers + 1) ∧
    (indices.length ≤ worker_id * (indices.length / num_workers + 1) →
      TensorBatchDatasetItr.gather_indices indices num_workers worker_id = []) := by
  refine ⟨rfl, pySlice_length indices _ _, fun h => pySlice_past_end indices _ _ h⟩

/-- C4 witness: 5 partitions, 2 workers, worker 1 takes [3, 4]. -/
theorem C4_assignment_witness :
    0 < (2 : Nat) ∧
    (TensorBatchDatasetItr.gather_indices [0, 1, 2, 3, 4] 2 1 =
        pySlice [0, 1, 2, 3, 4] 3 3 ∧
     (TensorBatchDatasetItr.gather_indices [0, 1, 2, 3, 4] 2 1).length = min 6 5 - 3 ∧
     ((5 : Nat) ≤ 3 → TensorBatchDatasetItr.gather_indices [0, 1, 2, 3, 4] 2 1 = [])) :=
  ⟨by decide, C4_assignment [0, 1, 2, 3, 4] 2 1 (by decide)⟩

theorem flatten_slices (p : Nat) :
    ∀ (w : Nat) (l : List Nat), l.length ≤ w * p →
      ((List.range w).map (fun i => (l.drop (i * p)).take p)).flatten = l := by
  intro w
  induction w with
  | zero =>
    intro l h
    simp only [Nat.zero_mul, Nat.le_zero, List.length_eq_zero] at h
    simp [h]
  | succ w ih =>
    intro l h
    rw [List.range_succ_eq_map]
    simp only [List.map_cons, List.map_map, List.flatten_cons, Function.comp_def,
      Nat.zero_mul, List.drop_zero]
    have hfun : (fun i => (l.drop (Nat.succ i * p)).take p)
        = (fun i => ((l.drop p).drop (i * p)).take p) := by
      funext i
      rw [List.drop_drop, Nat.succ_mul, Nat.add_comm]
    rw [hfun, ih (l.drop p) (by rw [List.length_drop, Nat.succ_mul] at *; omega)]
    exact List.take_append_drop p l



/-- C5: worker slices concatenate to the whole index list (disjoint
coverage) and earlier workers get at least as many partitions. -/
theorem C5_disjoint_coverage (indices : List Nat) (num_workers i j : Nat)
    (hw : 0 < num_workers) (hij : i ≤ j) :
    ((List.range num_workers).map
        (fun k => TensorBatchDatasetItr.gather_indices indices num_workers k)).flatten =
      indices ∧
    (TensorBatchDatasetItr.gather_indices indices num_workers j).length ≤
      (TensorBatchDatasetItr.gather_indices indices num_workers i).length := by
  constructor
  · have hb : indices.length ≤ num_workers * (indices.length / num_workers + 1) := by
      have h1 := Nat.div_add_mod indices.length num_workers
      have h2 := Nat.mod_lt indices.length hw
      rw [Nat.mul_add, Nat.mul_one]
      omega
    have hmain := flatten_slices (indices.length / num_workers + 1) num_workers indices hb
    simpa [TensorBatchDatasetItr.gather_indices, pySlice] using hmain
  · simp only [TensorBatchDatasetItr.gather_indices]
    rw [pySlice_length, pySlice_length]
    have key : ∀ a b n p : Nat, a ≤ b → min (b + p) n - b ≤ min (a + p) n - a := by
      intro a b n p h
      omega
    exact key _ _ _ _ (Nat.mul_le_mul_right _ hij)

/-- C5 witness: 5 partitions over 2 workers give slices [0,1,2] and
[3,4]. -/
theorem C5_disjoint_coverage_witness :
    0 < (2 : Nat) ∧ (0 : Nat) ≤ 1 ∧
    (((List.range 2).map
        (fun k => TensorBatchDatasetItr.gather_indices [0, 1, 2, 3, 4] 2 k)).flatten =
      [0, 1, 2, 3, 4] ∧
     (TensorBatchDatasetItr.gather_indices [0, 1, 2, 3, 4] 2 1).length ≤
       (TensorBatchDatasetItr.gather_indices [0, 1, 2, 3, 4] 2 0).length) :=
  ⟨by decide, by decide, C5_disjoint_coverage [0, 1, 2, 3, 4] 2 0 1 (by decide) (by decide)⟩



/-- The seven ten-row partitions of the concrete scenario, rows 0..69. -/
def scenarioParts : List Table :=
  (List.range 7).map (fun j => (List.range 10).map (fun i => 10 * j + i))

/-- C2: the emitted batch row counts are 16, 16, 16, 16, 6, yet rows are
duplicated (row 17 twice) and dropped (row 33 never emitted). -/
theorem C2_scenario :
    ((AsyncIterator.run 1 16
        (ChunkQueue.load_chunks ⟨3, 16, false⟩ id [] none scenarioParts).items 0).1.map
      List.length = [16, 16, 16, 16, 6]) ∧
    scenarioParts.flatten.length = 70 ∧
    scenarioParts.flatten.Nodup ∧
    ((AsyncIterator.run 1 16
        (ChunkQueue.load_chunks ⟨3, 16, false⟩ id [] none scenarioParts).items 0).1.flatten.count
      17 = 2) ∧
    ¬ (33 ∈ (AsyncIterator.run 1 16
        (ChunkQueue.load_chunks ⟨3, 16, false⟩ id [] none scenarioParts).items 0).1.flatten) := by
  refine ⟨by decide, by decide, by decide, by decide, by decide⟩

/-- A three-column payload with four aligned rows. -/
def sampleTensors : Tensors :=
  [some [0, 1, 2, 3], some [10, 11, 12, 13], some [20, 21, 22, 23]]

/-- C3: the iterator yields ceil(rows / batch_size) batches but slices
x[idx : idx + batch_size] with idx the batch index, so the second batch
starts at row 1 instead of row 2. -/
theorem C3_slicing_bug :
    tensorItrBatches sampleTensors 2 =
      [[some [0, 1], some [10, 11], some [20, 21]],
       [some [1, 2], some [11, 12], some [21, 22]]] ∧
    tensorItrBatchesSpec sampleTensors 2 =
      [[some [0, 1], some [10, 11], some [20, 21]],
       [some [2, 3], some [12, 13], some [22, 23]]] ∧
    tensorItrBatches sampleTensors 2 ≠ tensorItrBatchesSpec sampleTensors 2 ∧
    (tensorItrBatches sampleTensors 2).length = (4 + 2 - 1) / 2 := by
  refine ⟨by decide, by decide, by decide, by decide⟩



theorem run_replicate (num_workers batch_size : Nat) :
    ∀ (k c : Nat) (extra : List QItem), c + k = num_workers → 1 ≤ k →
      AsyncIterator.run num_workers batch_size
        (List.replicate k QItem.endTok ++ extra) c = ([], extra) := by
  intro k
  induction k with
  | zero =>
    intro c extra h h1
    omega
  | succ k ih =>
    intro c extra h h1
    rw [List.replicate_succ]
    cases k with
    | zero =>
      have hc : c + 1 = num_workers := by omega
      simp [AsyncIterator.run, hc]
    | succ k =>
      have hc : ¬ (c + 1 = num_workers) := by omega
      simp only [List.cons_append, AsyncIterator.run, hc, if_false]
      exact ih (c + 1) extra (by omega) (by omega)

/-- C6: with zero partitions each worker publishes exactly the sentinel
(one item, within the queue capacity), and the coordinator consuming one
sentinel per worker terminates with no batch emitted and nothing beyond
the sentinels consumed. -/
theorem C6_zero_partitions (cfg : ChunkQueueCfg) (shuffleFn : Workflow)
    (workflows : List Workflow) (num_workers batch_size : Nat)
    (extra : List QItem) (hw : 0 < num_workers) :
    (ChunkQueue.load_chunks cfg shuffleFn workflows none []).items = [QItem.endTok] ∧
    (ChunkQueue.load_chunks cfg shuffleFn workflows none []).items.length ≤ queueCapacity ∧
    AsyncIterator.run num_workers batch_size
      (List.replicate num_workers QItem.endTok ++ extra) 0 = ([], extra) := by
  refine ⟨rfl, by simp [ChunkQueue.load_chunks, ChunkQueue.batch, ChunkQueue.loadGo,
    queueCapacity], ?_⟩
  exact run_replicate num_workers batch_size num_workers 0 extra (by omega) hw

/-- C6 witness with two workers and a leftover batch item. -/
theorem C6_zero_partitions_witness :
    0 < (2 : Nat) ∧
    ((ChunkQueue.load_chunks ⟨3, 16, false⟩ id [] none []).items = [QItem.endTok] ∧
     (ChunkQueue.load_chunks ⟨3, 16, false⟩ id [] none []).items.length ≤ queueCapacity ∧
     AsyncIterator.run 2 16
       (List.replicate 2 QItem.endTok ++ [QItem.batch [5]]) 0 = ([], [QItem.batch [5]])) :=
  ⟨by decide, C6_zero_partitions ⟨3, 16, false⟩ id [] 2 16 [QItem.batch [5]] (by decide)⟩



theorem loadGo_count_end (cfg : ChunkQueueCfg) (shuffleFn : Workflow)
    (workflows : List Workflow) :
    ∀ (gs : List (List Table)) (spill chunksVar : Option Table),
      ((ChunkQueue.loadGo cfg shuffleFn workflows none gs spill chunksVar).items).count
        QItem.endTok = 1 := by
  intro gs
  induction gs with
  | nil =>
    intro spill chunksVar
    cases spill <;> simp [ChunkQueue.loadGo, List.count_cons]
  | cons g gs ih =>
    intro spill chunksVar
    rw [ChunkQueue.loadGo]
    simp only [isStopped, Bool.false_eq_true, if_false]
    cases hp : (ChunkQueue.processGroup cfg shuffleFn workflows spill g).published <;>
      simp [hp, tickStop, ih, List.count_cons]

theorem loadGo_stopped (cfg : ChunkQueueCfg) (shuffleFn : Workflow)
    (workflows : List Workflow) :
    ∀ (gs : List (List Table)) (k : Nat) (spill chunksVar : Option Table),
      k < gs.length →
      ((ChunkQueue.loadGo cfg shuffleFn workflows (some k) gs spill chunksVar).items).count
        QItem.endTok = 0 ∧
      ∃ t, (ChunkQueue.loadGo cfg shuffleFn workflows none gs spill chunksVar).items =
        (ChunkQueue.loadGo cfg shuffleFn workflows (some k) gs spill chunksVar).items ++ t := by
  intro gs
  induction gs with
  | nil =>
    intro k spill chunksVar hk
    simp at hk
  | cons g gs ih =>
    intro k spill chunksVar hk
    cases k with
    | zero =>
      have hstop0 : (ChunkQueue.loadGo cfg shuffleFn workflows (some 0) (g :: gs) spill
          chunksVar).items = [] := by
        rw [ChunkQueue.loadGo]
        simp [isStopped]
      constructor
      · rw [hstop0]
        simp
      · exact ⟨(ChunkQueue.loadGo cfg shuffleFn workflows none (g :: gs) spill
          chunksVar).items, by rw [hstop0]; simp⟩
    | succ k =>
      have hk2 : k < gs.length := by simpa using hk
      obtain ⟨h1, t, h2⟩ := ih k
        (some (ChunkQueue.processGroup cfg shuffleFn workflows spill g).spill)
        (ChunkQueue.processGroup cfg shuffleFn workflows spill g).chunksVar hk2
      constructor
      · rw [ChunkQueue.loadGo]
        simp only [isStopped, Bool.false_eq_true, if_false]
        cases hp : (ChunkQueue.processGroup cfg shuffleFn workflows spill g).published <;>
          simp [hp, tickStop, h1, List.count_cons]
      · refine ⟨t, ?_⟩
        rw [ChunkQueue.loadGo, ChunkQueue.loadGo]
        simp only [isStopped, Bool.false_eq_true, if_false]
        cases hp : (ChunkQueue.processGroup cfg shuffleFn workflows spill g).published <;>
          simp [hp, tickStop, h2]



/-- C7: the unstopped run publishes the sentinel exactly once; a run
whose stop flag reads true at group k (before exhaustion) publishes no
sentinel and its output is a prefix of the unstopped output. -/
theorem C7_stop_semantics (cfg : ChunkQueueCfg) (shuffleFn : Workflow)
    (workflows : List Workflow) (parts : List Table) (k : Nat)
    (hk : k < (ChunkQueue.batch cfg.num_parts [] parts).length) :
    ((ChunkQueue.load_chunks cfg shuffleFn workflows none parts).items).count
      QItem.endTok = 1 ∧
    ((ChunkQueue.load_chunks cfg shuffleFn workflows (some k) parts).items).count
      QItem.endTok = 0 ∧
    ∃ t, (ChunkQueue.load_chunks cfg shuffleFn workflows none parts).items =
      (ChunkQueue.load_chunks cfg shuffleFn workflows (some k) parts).items ++ t := by
  obtain ⟨h1, h2⟩ := loadGo_stopped cfg shuffleFn workflows
    (ChunkQueue.batch cfg.num_parts [] parts) k none none hk
  exact ⟨loadGo_count_end cfg shuffleFn workflows _ none none, h1, h2⟩

/-- C7 witness: two single-partition groups, stop read at group 1. -/
theorem C7_stop_semantics_witness :
    1 < (ChunkQueue.batch 1 [] [[0, 1], [2, 3]]).length ∧
    (((ChunkQueue.load_chunks ⟨1, 2, false⟩ id [] none [[0, 1], [2, 3]]).items).count
       QItem.endTok = 1 ∧
     ((ChunkQueue.load_chunks ⟨1, 2, false⟩ id [] (some 1) [[0, 1], [2, 3]]).items).count
       QItem.endTok = 0 ∧
     ∃ t, (ChunkQueue.load_chunks ⟨1, 2, false⟩ id [] none [[0, 1], [2, 3]]).items =
       (ChunkQueue.load_chunks ⟨1, 2, false⟩ id [] (some 1) [[0, 1], [2, 3]]).items ++ t) :=
  ⟨by decide, C7_stop_semantics ⟨1, 2, false⟩ id [] [[0, 1], [2, 3]] 1 (by decide)⟩

theorem applyOps_stop_mono :
    ∀ (ops : List CQOp) (s : ChunkQueueState), s.stop_event = true →
      (applyOps s ops).stop_event = true := by
  intro ops
  induction ops with
  | nil =>
    intro s h
    simpa [applyOps] using h
  | cons op ops ih =>
    intro s h
    rw [show applyOps s (op :: ops) = applyOps (CQOp.apply s op) ops from rfl]
    apply ih
    cases op <;> simp [CQOp.apply, ChunkQueue.stop, h]

/-- C8: stop sets the flag, clears the queue, is idempotent, and no
later queue operation (put, get, stop, or the destruction path) ever
clears the flag again. -/
theorem C8_stop_safety (s : ChunkQueueState) (ops : List CQOp) :
    (ChunkQueue.stop s).stop_event = true ∧
    ChunkQueue.stopped (ChunkQueue.stop s) = true ∧
    (ChunkQueue.stop s).q_out = [] ∧
    ChunkQueue.stop (ChunkQueue.stop s) = ChunkQueue.stop s ∧
    (applyOps (ChunkQueue.stop s) ops).stop_event = true :=
  ⟨rfl, rfl, rfl, rfl, applyOps_stop_mono ops (ChunkQueue.stop s) rfl⟩

/-- C9 counterexample: constructing a ChunkQueue with batch_size 0 does
not fail; the arguments are stored unvalidated. -/
theorem C9_counterexample :
    ChunkQueue.init 3 0 false =
      Except.ok { num_parts := 3, batch_size := 0, shuffle := false } ∧
    (ChunkQueue.init 3 0 false).isOk = true :=
  ⟨rfl, rfl⟩

/-- C9 amended: construction always succeeds, and the batch_size = 0
error only appears later, as a ZeroDivisionError inside the align step
run by the worker. -/
theorem C9_no_validation (num_parts : Nat) (batch_size : Int) (shuffle : Bool)
    (chunks : Table) :
    ChunkQueue.init num_parts batch_size shuffle =
      Except.ok { num_parts := num_parts, batch_size := batch_size, shuffle := shuffle } ∧
    ChunkQueue.get_batch_div_chunk_checked 0 chunks = Except.error "ZeroDivisionError" :=
  ⟨rfl, rfl⟩



theorem if_none_or_nil (c : Table) :
    (if 0 < c.length then none else some c) = (none : Option Table) ∨
    (if 0 < c.length then none else some c) = some [] := by
  by_cases h : 0 < c.length
  · simp [h]
  · have hnil : c = [] := List.length_eq_zero.mp (Nat.eq_zero_of_not_pos h)
    simp [h, hnil]

theorem processGroup_wf_indep (cfg : ChunkQueueCfg) (shuffleFn : Workflow)
    (workflows : List Workflow) (spill : Option Table) (g : List Table) :
    (ChunkQueue.processGroup cfg shuffleFn workflows spill g).spill =
      (ChunkQueue.processGroup cfg shuffleFn [] spill g).spill ∧
    (ChunkQueue.processGroup cfg shuffleFn workflows spill g).chunksVar =
      (ChunkQueue.processGroup cfg shuffleFn [] spill g).chunksVar ∧
    ((ChunkQueue.processGroup cfg shuffleFn workflows spill g).chunksVar = none ∨
     (ChunkQueue.processGroup cfg shuffleFn workflows spill g).chunksVar = some []) := by
  refine ⟨rfl, rfl, ?_⟩
  simp only [ChunkQueue.processGroup]
  exact if_none_or_nil _



theorem loadGo_flush (cfg : ChunkQueueCfg) (shuffleFn : Workflow) (workflows : List Workflow) :
    ∀ (gs : List (List Table)) (spill chunksVar : Option Table),
      (chunksVar = none ∨ chunksVar = some []) →
      ((ChunkQueue.loadGo cfg shuffleFn workflows none gs spill chunksVar).flushArg = none ∨
       (ChunkQueue.loadGo cfg shuffleFn workflows none gs spill chunksVar).flushArg =
         some none ∨
       (ChunkQueue.loadGo cfg shuffleFn workflows none gs spill chunksVar).flushArg =
         some (some [])) ∧
      (ChunkQueue.loadGo cfg shuffleFn workflows none gs spill chunksVar).flushArg =
        (ChunkQueue.loadGo cfg shuffleFn [] none gs spill chunksVar).flushArg ∧
      (ChunkQueue.loadGo cfg shuffleFn workflows none gs spill chunksVar).flushPublished =
        (ChunkQueue.loadGo cfg shuffleFn [] none gs spill chunksVar).flushPublished := by
  intro gs
  induction gs with
  | nil =>
    intro spill chunksVar hcv
    cases spill with
    | none => simp [ChunkQueue.loadGo]
    | some s =>
      refine ⟨?_, rfl, rfl⟩
      rcases hcv with h | h <;> simp [ChunkQueue.loadGo, h]
  | cons g gs ih =>
    intro spill chunksVar hcv
    have hs := (processGroup_wf_indep cfg shuffleFn workflows spill g).1
    have hc := (processGroup_wf_indep cfg shuffleFn workflows spill g).2.1
    have hinv := (processGroup_wf_indep cfg shuffleFn workflows spill g).2.2
    obtain ⟨H1, H2, H3⟩ := ih
      (some (ChunkQueue.processGroup cfg shuffleFn workflows spill g).spill)
      (ChunkQueue.processGroup cfg shuffleFn workflows spill g).chunksVar hinv
    rw [H2] at H1
    simp only [ChunkQueue.loadGo, isStopped, Bool.false_eq_true, if_false, tickStop]
    rw [← hs, ← hc]
    cases hpw : (ChunkQueue.processGroup cfg shuffleFn workflows spill g).published <;>
      cases hp0 : (ChunkQueue.processGroup cfg shuffleFn [] spill g).published <;>
        simp [hpw, hp0, H1, H2, H3]



/-- C10: whenever the end-of-stream flush runs, the argument handed to
itr.preprocess is the dead chunks variable (None or an empty table),
and the flushed table itself is identical to the one produced by a run
with no workflows at all: the final undersized batch is tensorized and
published without passing through the transforms. -/
theorem C10_flush_bypasses_transforms (cfg : ChunkQueueCfg) (shuffleFn : Workflow)
    (workflows : List Workflow) (parts : List Table) :
    ((ChunkQueue.load_chunks cfg shuffleFn workflows none parts).flushArg = none ∨
     (ChunkQueue.load_chunks cfg shuffleFn workflows none parts).flushArg = some none ∨
     (ChunkQueue.load_chunks cfg shuffleFn workflows none parts).flushArg =
       some (some [])) ∧
    (ChunkQueue.load_chunks cfg shuffleFn workflows none parts).flushPublished =
      (ChunkQueue.load_chunks cfg shuffleFn [] none parts).flushPublished := by
  obtain ⟨h1, _, h3⟩ := loadGo_flush cfg shuffleFn workflows
    (ChunkQueue.batch cfg.num_parts [] parts) none none (Or.inl rfl)
  exact ⟨h1, h3⟩

/-- C10 counterexample: one five-row partition under one workflow; the
flush passes an empty table (not None) to the transform step, and the
published final batch carries the raw rows, not the transformed ones. -/
theorem C10_counterexample :
    (ChunkQueue.load_chunks ⟨3, 16, false⟩ id [fun t => t.map (fun x => x + 100)] none
        [[0, 1, 2, 3, 4]]).flushArg = some (some []) ∧
    (ChunkQueue.load_chunks ⟨3, 16, false⟩ id [fun t => t.map (fun x => x + 100)] none
        [[0, 1, 2, 3, 4]]).flushArg ≠ some none ∧
    (ChunkQueue.load_chunks ⟨3, 16, false⟩ id [fun t => t.map (fun x => x + 100)] none
        [[0, 1, 2, 3, 4]]).flushPublished = some [0, 1, 2, 3, 4] ∧
    TensorBatchDatasetItr.preprocess [fun t => t.map (fun x => x + 100)] [0, 1, 2, 3, 4] =
      [100, 101, 102, 103, 104] := by
  refine ⟨rfl, by decide, rfl, rfl⟩


end NVTLoader
